import Mathlib

/-!
# Verification of the portfolio site's theme resolver, navigation highlighter
and form validator

Shallow embedding of the JavaScript sources:
* `assets/js/theme.js` (`ThemeManager`),
* `assets/js/utils.js` (`Storage`, `Validation`, `Device`),
* `assets/js/navigation.js` (`NavigationManager.setupActiveSection`),
* `assets/js/forms.js` (`FormManager.validateField` and the field event
  handlers installed by `registerForm`),
* the top-level legacy `script.js` theme toggle.

Browser state that the code reads or writes (the `localStorage` string store,
the ambient `prefers-color-scheme` media query, the document root's theme
attribute, a field's inline error) is modelled explicitly; DOM cosmetics
(icons, aria labels, CSS injection, animation classes, console logging) carry
no information used by any claim and are omitted.
-/

/-! ## localStorage and the Storage wrapper (assets/js/utils.js) -/

/-- The browser's origin-scoped string store: a finite map from key strings to
raw item strings, represented as an association list. -/
def LocalStorage := List (String × String)

/-- `localStorage.getItem(key)`: the raw string stored at `key`, or `none`
(JS `null`) when the key is absent. -/
def getItem (store : LocalStorage) (key : String) : Option String :=
  (store.find? (fun kv => kv.1 = key)).map (fun kv => kv.2)

/-- `localStorage.setItem(key, value)`: stores the raw string `value` at
`key`, replacing any previous entry for that key. -/
def setItem (store : LocalStorage) (key value : String) : LocalStorage :=
  (key, value) :: store.filter (fun kv => kv.1 ≠ key)

/-- `JSON.stringify` restricted to string arguments, as `Storage.set` applies
it: the value wrapped in double quotes, with any double quote or backslash
inside escaped by a backslash.  (Control characters, which `JSON.stringify`
turns into escape sequences, do not occur in any value this program writes.) -/
def jsonStringifyStr (s : String) : String :=
  ⟨'"' :: (s.data.flatMap (fun c => if c = '"' ∨ c = '\\' then ['\\', c] else [c])) ++ ['"']⟩

/-- The string-literal fragment of `JSON.parse`, as `Storage.get` applies it:
`some s` when the raw item is a double-quoted, escape-free string literal with
body `s`, and `none` otherwise.  Raw items that `JSON.parse` would reject
(parse error, caught by `Storage.get`) map to `none`; raw items that parse to
a non-string JSON value, or to a string containing a quote or backslash via
escape sequences, also map to `none` — `ThemeManager` compares the parsed
value only against the quote-free literals `"light"`, `"dark"`, `"system"`,
on which this function and `JSON.parse` agree. -/
def jsonParseStr (raw : String) : Option String :=
  match raw.data with
  | '"' :: rest =>
      if rest ≠ [] ∧ rest.getLast? = some '"' ∧
          rest.dropLast.all (fun c => c ≠ '"' ∧ c ≠ '\\') then
        some ⟨rest.dropLast⟩
      else none
  | _ => none

/-- `Storage.get(key)` from assets/js/utils.js, at its string-valued uses:
reads the raw item, returns the fallback `none` when the item is absent or
falsy, and otherwise the `JSON.parse` of the item — `none` standing for both
the caught parse error and a parsed value outside the string literals the
callers compare against (see `jsonParseStr`). -/
def Storage.get (store : LocalStorage) (key : String) : Option String :=
  (getItem store key).bind jsonParseStr

/-- `Storage.set(key, value)` from assets/js/utils.js:
`localStorage.setItem(key, JSON.stringify(value))`.  The try/catch only
swallows storage-quota exceptions, which the store model does not raise. -/
def Storage.set (store : LocalStorage) (key value : String) : LocalStorage :=
  setItem store key (jsonStringifyStr value)

/-! ## ThemeManager (assets/js/theme.js) -/

/-- `Object.values(this.THEMES)` = `['light', 'dark', 'system']`. -/
def THEMES : List String := ["light", "dark", "system"]

/-- `this.STORAGE_KEY`. -/
def STORAGE_KEY : String := "portfolio-theme"

/-- The ambient scheme as a string, from `Device.prefersDarkTheme()`
(assets/js/utils.js): the `(prefers-color-scheme: dark)` media query's
`matches` flag, rendered as the corresponding theme string. -/
def ambientScheme (prefersDark : Bool) : String :=
  if prefersDark then "dark" else "light"

/-- `ThemeManager.getEffectiveTheme`: the current preference itself when it is
concrete, otherwise the ambient scheme resolved at this moment. -/
def getEffectiveTheme (currentTheme : String) (prefersDark : Bool) : String :=
  if currentTheme = "system" then
    if prefersDark then "dark" else "light"
  else currentTheme

/-- The observable state of a `ThemeManager` instance together with the parts
of the document it writes: the in-memory preference `currentTheme`, the
`localStorage` store, and the theme the document root currently carries
(its `data-theme` attribute / theme class, written by `applyTheme`). -/
structure ThemeManager where
  currentTheme : String
  store : LocalStorage
  docTheme : String

/-- `ThemeManager.applyTheme`: recomputes the effective theme and writes it to
the document root.  Icon, aria-label, meta theme-color and the emitted event
all repeat the same effective theme and are not modelled separately. -/
def applyTheme (m : ThemeManager) (prefersDark : Bool) : ThemeManager :=
  { m with docTheme := getEffectiveTheme m.currentTheme prefersDark }

/-- `ThemeManager.setTheme(theme)`: rejected (with only a console error) when
`theme` is not one of the three valid strings; otherwise sets the preference,
persists it through `Storage.set`, and re-applies.  The optional transition
animation only toggles a cosmetic CSS class. -/
def setTheme (m : ThemeManager) (prefersDark : Bool) (theme : String) : ThemeManager :=
  if ¬ THEMES.contains theme then m
  else
    applyTheme { m with
      currentTheme := theme,
      store := Storage.set m.store STORAGE_KEY theme } prefersDark

/-- `ThemeManager.toggle()`: computes the current effective theme and sets the
opposite concrete theme. -/
def toggle (m : ThemeManager) (prefersDark : Bool) : ThemeManager :=
  let effectiveTheme := getEffectiveTheme m.currentTheme prefersDark
  let nextTheme := if effectiveTheme = "dark" then "light" else "dark"
  setTheme m prefersDark nextTheme

/-- `ThemeManager.loadSavedTheme`: the preference read back from storage when
it is truthy and one of the three valid strings, else `"system"`. -/
def loadSavedTheme (store : LocalStorage) : String :=
  match Storage.get store STORAGE_KEY with
  | some savedTheme =>
      if savedTheme ≠ "" ∧ THEMES.contains savedTheme then savedTheme
      else "system"
  | none => "system"

/-! ## Legacy theme toggle (script.js) -/

/-- The state the top-level `script.js` theme code touches: whether the
document root carries the `dark` class, and `localStorage`. -/
structure ScriptTheme where
  darkClass : Bool
  store : LocalStorage

/-- The `script.js` theme-toggle click handler: flips the root's `dark` class
and stores the literal new theme string under the key `'theme'` with a bare
`localStorage.setItem` (no JSON encoding). -/
def scriptThemeToggleClick (st : ScriptTheme) : ScriptTheme :=
  let isDark := st.darkClass
  let newTheme := if isDark then "light" else "dark"
  { darkClass := !isDark, store := setItem st.store "theme" newTheme }

/-! ## Active-section detection (assets/js/navigation.js) -/

/-- One cached entry of `NavigationManager.sections`: a section element's id
and its layout metrics `offsetTop` / `offsetHeight`.  (`cacheElements` filters
out links with no matching element, so every cached section has one.) -/
structure NavSection where
  id : String
  top : Int
  height : Int
deriving DecidableEq, Repr

/-- `this.config.headerOffset`. -/
def headerOffset : Int := 80

/-- The in-loop test of `setupActiveSection`:
`scrollPosition >= sectionTop - 100 && scrollPosition <= sectionBottom`,
where `sectionBottom = sectionTop + sectionHeight`. -/
def inActiveRange (scrollPosition : Int) (s : NavSection) : Bool :=
  scrollPosition ≥ s.top - 100 && scrollPosition ≤ s.top + s.height

/-- The throttled scan of `setupActiveSection`: with
`scrollPosition = window.pageYOffset + headerOffset`, walk the cached
sections from the last to the first and stop at the first one whose range
contains `scrollPosition`; `none` when no section's range does. -/
def findActiveSection (sections : List NavSection) (pageYOffset : Int) : Option NavSection :=
  let scrollPosition := pageYOffset + headerOffset
  sections.reverse.find? (inActiveRange scrollPosition)

/-- Written from the spec's words, for comparison with `findActiveSection`:
"the last section whose top lies above the current scroll offset" adjusted by
the header-height constant — the last section in document order with
`top ≤ pageYOffset + headerOffset`, ignoring section bottoms. -/
def specActiveSectionByTop (sections : List NavSection) (pageYOffset : Int) : Option NavSection :=
  sections.reverse.find? (fun s => s.top ≤ pageYOffset + headerOffset)

/-- The last element of a list satisfying `p`, by recursion in document
order: the description of the scan that the reverse-order loop realises. -/
def lastMatching (p : NavSection → Bool) : List NavSection → Option NavSection
  | [] => none
  | s :: rest =>
      match lastMatching p rest with
      | some t => some t
      | none => if p s then some s else none

/-! ## Validation primitives (assets/js/utils.js) -/

/-- A character admitted by the email regex's `[^\s@]` class: neither
whitespace nor `@`. -/
def emailChar (c : Char) : Bool := ¬ c.isWhitespace && c ≠ '@'

/-- Splits a character list at every occurrence of `sep` (the list-level
`String.splitOn` for a one-character separator). -/
def splitChar (sep : Char) : List Char → List (List Char)
  | [] => [[]]
  | c :: cs =>
      match splitChar sep cs with
      | [] => [[c]]
      | g :: gs => if c = sep then [] :: g :: gs else (c :: g) :: gs

/-- `Validation.isEmail`: the test `/^[^\s@]+@[^\s@]+\.[^\s@]+$/`.  A match
is a split `local@domain` at the string's only `@`, with a non-empty
whitespace-free local part and a whitespace-free domain containing a dot that
is neither its first nor its last character (the two `[^\s@]+` pieces around
the chosen dot may themselves contain dots). -/
def isEmail (email : String) : Bool :=
  match splitChar '@' email.data with
  | [loc, dom] =>
      loc ≠ [] && loc.all emailChar &&
      dom.all emailChar && ((dom.drop 1).dropLast.contains '.')
  | _ => false

/-- `Validation.isPhone`: strips whitespace, `-`, `(`, `)`, then tests
`/^[\+]?[1-9][\d]{0,15}$/`. -/
def isPhone (phone : String) : Bool :=
  let cs := phone.data.filter
    (fun c => ¬ (c.isWhitespace ∨ c = '-' ∨ c = '(' ∨ c = ')'))
  let cs := match cs with
    | '+' :: rest => rest
    | _ => cs
  match cs with
  | c :: rest => ('1' ≤ c && c ≤ '9') && rest.length ≤ 15 && rest.all Char.isDigit
  | [] => false

/-- JavaScript `String.prototype.trim` on the character list. -/
def jsTrim (s : String) : String :=
  ⟨((s.data.dropWhile Char.isWhitespace).reverse.dropWhile Char.isWhitespace).reverse⟩

/-- `Validation.isNotEmpty`: `str.trim().length > 0` (the values reaching it
are always strings, so the `typeof` guard holds). -/
def isNotEmpty (str : String) : Bool := (jsTrim str).data.length > 0

/-- `Validation.minLength`: `str.length >= length`. -/
def minLength (str : String) (length : Nat) : Bool := str.data.length ≥ length

/-- `Validation.maxLength`: `str.length <= length`. -/
def maxLength (str : String) (length : Nat) : Bool := str.data.length ≤ length

/-! ## FormManager field validation (assets/js/forms.js) -/

/-- One entry of a field's declared rule list: either a bare rule-name string
(`params = none`) or a `\x7b rule, params \x7d` object.  The configured
params are the numeric length arguments of `minLength` / `maxLength`. -/
structure RuleSpec where
  rule : String
  params : Option Nat
deriving DecidableEq, Repr

/-- The `validate` functions of `this.defaultRules`, looked up by rule name
and applied to the (already trimmed) value and the rule's params: `none` when
no validator of that name exists (the loop then skips the rule).  A
length rule reached with no params compares against JS `undefined`, which is
false. -/
def ruleValidate (ruleName : String) (value : String) (ruleParams : Option Nat) : Option Bool :=
  match ruleName with
  | "email" => some (isEmail value)
  | "phone" => some (isPhone value)
  | "required" => some (isNotEmpty value)
  | "minLength" => some (match ruleParams with | some n => minLength value n | none => false)
  | "maxLength" => some (match ruleParams with | some n => maxLength value n | none => false)
  | _ => none

/-- The message reported for a failing rule: the rule's `defaultRules`
message, with the `minLength` / `maxLength` messages customised with the
rule's params as in `validateField` (a missing param prints as JS
`undefined`). -/
def ruleMessage (ruleName : String) (ruleParams : Option Nat) : String :=
  let paramText := match ruleParams with | some n => toString n | none => "undefined"
  if ruleName = "minLength" then
    "This field must be at least " ++ paramText ++ " characters"
  else if ruleName = "maxLength" then
    "This field must be at most " ++ paramText ++ " characters"
  else if ruleName = "email" then "Please enter a valid email address"
  else if ruleName = "phone" then "Please enter a valid phone number"
  else if ruleName = "required" then "This field is required"
  else ""

/-- Whether a declared rule fails on the trimmed value: its validator exists
and returns false.  A rule with no registered validator never fails. -/
def ruleFails (value : String) (r : RuleSpec) : Bool :=
  ruleValidate r.rule value r.params = some false

/-- The rule loop of `FormManager.validateField` on the trimmed value:
skips rules with no validator, returns the first failing rule's message
(`setFieldError` plus `return false`), and `none` when every rule passes
(`clearFieldError` plus `return true`). -/
def validateFieldLoop (value : String) : List RuleSpec → Option String
  | [] => none
  | r :: rest =>
      match ruleValidate r.rule value r.params with
      | none => validateFieldLoop value rest
      | some true => validateFieldLoop value rest
      | some false => some (ruleMessage r.rule r.params)

/-- `FormManager.validateField` for a field with declared rule list `rules`
and raw field value `rawValue`: trims the value (`field.value.trim()`) and
runs the rule loop; the result is the field's error message, or `none` when
the field validates successfully. -/
def validateField (rules : List RuleSpec) (rawValue : String) : Option String :=
  validateFieldLoop (jsTrim rawValue) rules

/-- A registered field's state: its current value and its current inline
error (the `form.errors` entry plus the rendered `.field-error` element,
which the code always updates together). -/
structure FieldState where
  value : String
  error : Option String
deriving DecidableEq, Repr

/-- The events `registerForm` wires to a field: an `input` event (which may
change the value), a `blur` event, and a form submission reaching
`validateForm`. -/
inductive FieldEvent where
  | input (newValue : String)
  | blur
  | submit
deriving DecidableEq, Repr

/-- The per-field handlers installed by `registerForm`: `input` runs
`clearFieldError`; `blur` runs `validateField`; a submission's
`validateForm` runs the same `validateField` on the field.  `validateField`
sets the field's error to the first failing rule's message and clears it
when every rule passes. -/
def fieldStep (rules : List RuleSpec) (st : FieldState) : FieldEvent → FieldState
  | .input newValue => { value := newValue, error := none }
  | .blur => { st with error := validateField rules st.value }
  | .submit => { st with error := validateField rules st.value }

/-! ## Helper lemmas -/

lemma getItem_setItem (s : LocalStorage) (k v : String) :
    getItem (setItem s k v) k = some v := by
  simp [getItem, setItem, List.find?]

lemma storageGet_set (s : LocalStorage) (k v : String) :
    Storage.get (Storage.set s k v) k = jsonParseStr (jsonStringifyStr v) := by
  simp [Storage.get, Storage.set, getItem_setItem]

lemma mem_THEMES_cases {t : String} (h : t ∈ THEMES) :
    t = "light" ∨ t = "dark" ∨ t = "system" := by
  simpa [THEMES] using h

lemma setTheme_valid (m : ThemeManager) (prefersDark : Bool) (t : String)
    (h : t ∈ THEMES) :
    setTheme m prefersDark t =
      { currentTheme := t, store := Storage.set m.store STORAGE_KEY t,
        docTheme := getEffectiveTheme t prefersDark } := by
  unfold setTheme applyTheme
  rw [if_neg (not_not_intro (List.elem_iff.mpr h))]

lemma toggle_currentTheme (m : ThemeManager) (prefersDark : Bool) :
    (toggle m prefersDark).currentTheme =
      if getEffectiveTheme m.currentTheme prefersDark = "dark" then "light" else "dark" := by
  unfold toggle
  by_cases h : getEffectiveTheme m.currentTheme prefersDark = "dark" <;>
    simp [h, setTheme_valid _ _ _ (by decide : ("light" : String) ∈ THEMES),
      setTheme_valid _ _ _ (by decide : ("dark" : String) ∈ THEMES)]

lemma validateFieldLoop_eq_find (value : String) (rules : List RuleSpec) :
    validateFieldLoop value rules
      = (rules.find? (ruleFails value)).map (fun r => ruleMessage r.rule r.params) := by
  induction rules with
  | nil => rfl
  | cons r rest ih =>
      unfold validateFieldLoop
      cases hv : ruleValidate r.rule value r.params with
      | none => simp [List.find?, ruleFails, hv, ih]
      | some b => cases b <;> simp [List.find?, ruleFails, hv, ih]

lemma ruleMessage_ne_empty_of_fails (r : RuleSpec) (value : String)
    (h : ruleFails value r = true) :
    ruleMessage r.rule r.params ≠ "" := by
  have hv : ruleValidate r.rule value r.params = some false := of_decide_eq_true h
  unfold ruleValidate at hv
  unfold ruleMessage
  split at hv <;> simp_all <;>
    (intro heq
     have hlen := congrArg String.length heq
     rw [String.length_append, String.length_append] at hlen
     have h1 : ("This field must be at least " : String).length = 28 := rfl
     have h2 : ("This field must be at most " : String).length = 27 := rfl
     have h3 : (" characters" : String).length = 11 := rfl
     have h0 : ("" : String).length = 0 := rfl
     omega)

/-! ## Claims -/

/-- C1: for a concrete user preference (`"light"` or `"dark"`)
`getEffectiveTheme` returns that preference whatever the ambient scheme is,
and for the `"system"` preference it returns the ambient scheme read at the
moment of evaluation. -/
theorem c1_effective_theme_of_preference (pref : String) (prefersDark : Bool)
    (h : pref = "light" ∨ pref = "dark") :
    getEffectiveTheme pref prefersDark = pref ∧
    getEffectiveTheme "system" prefersDark = ambientScheme prefersDark := by
  rcases h with h | h <;> subst h <;> cases prefersDark <;> exact ⟨by decide, by decide⟩

theorem c1_effective_theme_of_preference_instance :
    getEffectiveTheme "light" true = "light" ∧
    getEffectiveTheme "system" true = ambientScheme true :=
  c1_effective_theme_of_preference "light" true (Or.inl rfl)

/-- C2: from any theme-manager state whose preference is one of the three
valid values, `toggle` sets the preference to the concrete opposite of the
current effective theme (never to `"system"`), persists that preference
through the storage wrapper, and re-applies the resulting effective theme to
the document root. -/
theorem c2_toggle_opposite_persist_apply (m : ThemeManager) (prefersDark : Bool)
    (h : m.currentTheme ∈ THEMES) :
    (toggle m prefersDark).currentTheme ≠ "system" ∧
    (getEffectiveTheme m.currentTheme prefersDark = "dark" →
      (toggle m prefersDark).currentTheme = "light") ∧
    (getEffectiveTheme m.currentTheme prefersDark = "light" →
      (toggle m prefersDark).currentTheme = "dark") ∧
    Storage.get (toggle m prefersDark).store STORAGE_KEY
      = some ((toggle m prefersDark).currentTheme) ∧
    (toggle m prefersDark).docTheme
      = getEffectiveTheme ((toggle m prefersDark).currentTheme) prefersDark := by
  rw [show toggle m prefersDark = setTheme m prefersDark
        (if getEffectiveTheme m.currentTheme prefersDark = "dark"
          then "light" else "dark") from rfl]
  by_cases he : getEffectiveTheme m.currentTheme prefersDark = "dark"
  · rw [if_pos he, setTheme_valid _ _ _ (by decide : ("light" : String) ∈ THEMES)]
    refine ⟨(by decide : ("light" : String) ≠ "system"), fun _ => rfl, ?_, ?_, rfl⟩
    · intro hc
      rw [hc] at he
      exact absurd he (by decide)
    · rw [storageGet_set]
      exact (by decide : jsonParseStr (jsonStringifyStr "light") = some "light")
  · rw [if_neg he, setTheme_valid _ _ _ (by decide : ("dark" : String) ∈ THEMES)]
    refine ⟨(by decide : ("dark" : String) ≠ "system"), ?_, fun _ => rfl, ?_, rfl⟩
    · intro hc
      exact absurd hc he
    · rw [storageGet_set]
      exact (by decide : jsonParseStr (jsonStringifyStr "dark") = some "dark")

theorem c2_toggle_opposite_persist_apply_instance :
    (toggle ⟨"system", [], "light"⟩ true).currentTheme ≠ "system" ∧
    (getEffectiveTheme "system" true = "dark" →
      (toggle ⟨"system", [], "light"⟩ true).currentTheme = "light") ∧
    (getEffectiveTheme "system" true = "light" →
      (toggle ⟨"system", [], "light"⟩ true).currentTheme = "dark") ∧
    Storage.get (toggle ⟨"system", [], "light"⟩ true).store STORAGE_KEY
      = some ((toggle ⟨"system", [], "light"⟩ true).currentTheme) ∧
    (toggle ⟨"system", [], "light"⟩ true).docTheme
      = getEffectiveTheme ((toggle ⟨"system", [], "light"⟩ true).currentTheme) true :=
  c2_toggle_opposite_persist_apply ⟨"system", [], "light"⟩ true (by decide)

/-- C3: with the ambient scheme held fixed and the starting preference one of
the three valid values, two applications of `toggle` restore the original
effective theme. -/
theorem c3_double_toggle_restores_effective (m : ThemeManager) (prefersDark : Bool)
    (h : m.currentTheme ∈ THEMES) :
    getEffectiveTheme ((toggle (toggle m prefersDark) prefersDark).currentTheme) prefersDark
      = getEffectiveTheme m.currentTheme prefersDark := by
  rcases mem_THEMES_cases h with h' | h' | h' <;> cases prefersDark <;>
    rw [toggle_currentTheme, toggle_currentTheme, h'] <;> decide

theorem c3_double_toggle_restores_effective_instance :
    getEffectiveTheme
      ((toggle (toggle ⟨"system", [], "light"⟩ true) true).currentTheme) true
      = getEffectiveTheme "system" true :=
  c3_double_toggle_restores_effective ⟨"system", [], "light"⟩ true (by decide)

/-- C4: `loadSavedTheme` is a total function of the raw store contents, and
whenever the value the storage wrapper reads back at the preference key is
absent or is not one of the three valid preference strings, the resulting
preference is `"system"`. -/
theorem c4_load_saved_theme_defaults_system (store : LocalStorage)
    (h : ∀ s, Storage.get store STORAGE_KEY = some s → ¬ s ∈ THEMES) :
    loadSavedTheme store = "system" := by
  unfold loadSavedTheme
  cases hg : Storage.get store STORAGE_KEY with
  | none => rfl
  | some s =>
      show (if s ≠ "" ∧ THEMES.contains s = true then s else "system") = "system"
      rw [if_neg]
      rintro ⟨-, hc⟩
      exact h s hg (List.elem_iff.mp hc)

theorem c4_load_saved_theme_defaults_system_instance :
    loadSavedTheme [("portfolio-theme", "\"banana\"")] = "system" := by
  apply c4_load_saved_theme_defaults_system
  intro s hs
  rw [show Storage.get [("portfolio-theme", "\"banana\"")] STORAGE_KEY
      = some "banana" from by decide] at hs
  obtain rfl := Option.some.inj hs
  decide

/-- C5 counterexample: after `setTheme` stores the preference `"dark"`, the
raw string under the key `portfolio-theme` is the five-character JSON
encoding (the literal wrapped in double quotes), which is not one of the
literal strings `"light"`, `"dark"`, `"system"`. -/
theorem c5_stored_string_not_literal :
    getItem (setTheme ⟨"light", [], "light"⟩ false "dark").store STORAGE_KEY
      = some "\"dark\"" ∧ ¬ ("\"dark\"" ∈ THEMES) := by
  decide

/-- C5 amended: each theme implementation persists under its own single fixed
key.  `setTheme` stores, under `portfolio-theme`, exactly the JSON encoding
of the preference string, which the storage wrapper decodes back to the
literal preference; the legacy `script.js` toggle stores the literal string
(always `"light"` or `"dark"`) under its separate key `theme`. -/
theorem c5_per_key_json_encoded_persistence (m : ThemeManager)
    (prefersDark : Bool) (theme : String) (h : theme ∈ THEMES)
    (st : ScriptTheme) :
    getItem (setTheme m prefersDark theme).store STORAGE_KEY
      = some (jsonStringifyStr theme) ∧
    Storage.get (setTheme m prefersDark theme).store STORAGE_KEY = some theme ∧
    getItem (scriptThemeToggleClick st).store "theme"
      = some (if st.darkClass then "light" else "dark") ∧
    ((if st.darkClass then "light" else "dark") : String) ∈ THEMES := by
  rw [setTheme_valid _ _ _ h]
  refine ⟨?_, ?_, ?_, ?_⟩
  · simp [Storage.set, getItem_setItem]
  · rcases mem_THEMES_cases h with h' | h' | h' <;> subst h' <;>
      rw [storageGet_set] <;> decide
  · simp [scriptThemeToggleClick, getItem_setItem]
  · cases st.darkClass <;> decide

theorem c5_per_key_json_encoded_persistence_instance :
    getItem (setTheme ⟨"light", [], "light"⟩ false "dark").store STORAGE_KEY
      = some (jsonStringifyStr "dark") ∧
    Storage.get (setTheme ⟨"light", [], "light"⟩ false "dark").store STORAGE_KEY
      = some "dark" ∧
    getItem (scriptThemeToggleClick ⟨false, []⟩).store "theme" = some "dark" ∧
    (("dark" : String) ∈ THEMES) :=
  c5_per_key_json_encoded_persistence ⟨"light", [], "light"⟩ false "dark"
    (by decide) ⟨false, []⟩

/-- C6 counterexample: a scroll position past the bottom of every section.
With a single section of top 0 and height 100 and `pageYOffset = 500`, the
section's top lies above the adjusted scroll offset, so the claimed
top-only scan keeps it active, but the code's scan — which also requires the
offset not to exceed the section's bottom — reports no active section. -/
theorem c6_active_section_not_top_only :
    findActiveSection [⟨"hero", 0, 100⟩] 500 = none ∧
    specActiveSectionByTop [⟨"hero", 0, 100⟩] 500 = some ⟨"hero", 0, 100⟩ := by
  decide

/-- C6 amended: on a throttled scroll update the active section is the last
section in document order whose slack interval — from 100 above its top to
its bottom — contains `pageYOffset + headerOffset`; when no section's
interval does (for instance past a section's bottom) no section is active,
so the result depends on section heights as well as tops. -/
theorem c6_active_section_interval_scan (sections : List NavSection)
    (pageYOffset : Int) :
    findActiveSection sections pageYOffset
      = lastMatching (inActiveRange (pageYOffset + headerOffset)) sections := by
  show sections.reverse.find? (inActiveRange (pageYOffset + headerOffset))
    = lastMatching (inActiveRange (pageYOffset + headerOffset)) sections
  induction sections with
  | nil => rfl
  | cons s rest ih =>
      rw [List.reverse_cons, List.find?_append, ih]
      cases hlm : lastMatching (inActiveRange (pageYOffset + headerOffset)) rest with
      | some t => simp [lastMatching, hlm, Option.or]
      | none =>
          cases hp : inActiveRange (pageYOffset + headerOffset) s <;>
            simp [lastMatching, hlm, hp, List.find?, Option.or]

/-- C7: `validateField` trims the field value and reports exactly the message
of the first rule in declared order whose registered validator fails — later
rules do not influence the result — and reports no error precisely when no
declared rule fails. -/
theorem c7_validate_field_first_failing_rule (rules : List RuleSpec)
    (rawValue : String) :
    validateField rules rawValue
      = (rules.find? (ruleFails (jsTrim rawValue))).map
          (fun r => ruleMessage r.rule r.params) ∧
    (validateField rules rawValue = none ↔
      ∀ r ∈ rules, ¬ ruleFails (jsTrim rawValue) r) := by
  refine ⟨validateFieldLoop_eq_find _ _, ?_⟩
  rw [show validateField rules rawValue
      = validateFieldLoop (jsTrim rawValue) rules from rfl]
  rw [validateFieldLoop_eq_find]
  simp [List.find?_eq_none]

/-- C8: a field whose rule list contains `required` fails on the value `""`
with a non-empty error message; among the field's events, an `input` event
always clears the error, while `blur` and form submission re-validate and so
keep an error present while the value remains `""`. -/
theorem c8_required_empty_fails_input_clears (rules : List RuleSpec)
    (h : ∃ r, r ∈ rules ∧ r.rule = "required") :
    (∃ msg, validateField rules "" = some msg ∧ msg ≠ "") ∧
    (∀ (st : FieldState) (v : String),
      (fieldStep rules st (.input v)).error = none) ∧
    (∀ st : FieldState, st.value = "" →
      (fieldStep rules st .blur).error ≠ none ∧
      (fieldStep rules st .submit).error ≠ none) := by
  obtain ⟨r, hmem, hname⟩ := h
  have hfail : ruleFails "" r = true := by
    have : ruleValidate r.rule "" r.params = some false := by rw [hname]; rfl
    simp [ruleFails, this]
  have hsome : ∃ msg, validateField rules "" = some msg ∧ msg ≠ "" := by
    rw [show validateField rules "" = validateFieldLoop "" rules from rfl,
      validateFieldLoop_eq_find]
    cases hf : rules.find? (ruleFails "") with
    | none =>
        exact absurd hfail (by simpa using List.find?_eq_none.mp hf r hmem)
    | some r₀ =>
        exact ⟨ruleMessage r₀.rule r₀.params, rfl,
          ruleMessage_ne_empty_of_fails r₀ "" (List.find?_some hf)⟩
  refine ⟨hsome, fun st v => rfl, ?_⟩
  intro st hval
  obtain ⟨msg, hmsg, -⟩ := hsome
  constructor <;>
    · show validateField rules st.value ≠ none
      rw [hval, hmsg]
      simp

theorem c8_required_empty_fails_input_clears_instance :
    (∃ msg, validateField [⟨"required", none⟩] "" = some msg ∧ msg ≠ "") ∧
    (∀ (st : FieldState) (v : String),
      (fieldStep [⟨"required", none⟩] st (.input v)).error = none) ∧
    (∀ st : FieldState, st.value = "" →
      (fieldStep [⟨"required", none⟩] st .blur).error ≠ none ∧
      (fieldStep [⟨"required", none⟩] st .submit).error ≠ none) :=
  c8_required_empty_fails_input_clears [⟨"required", none⟩]
    ⟨⟨"required", none⟩, by decide, rfl⟩

/-- C9: the effective theme computed from a manager state depends only on the
preference and the ambient scheme; `applyTheme` never touches the store, and
what `setTheme` persists is exactly its preference argument — in particular
setting the `"system"` preference stores the string `"system"`, which is
never an effective theme. -/
theorem c9_effective_pure_preference_only_persisted (m m' : ThemeManager)
    (prefersDark : Bool) (theme : String) (h1 : theme ∈ THEMES)
    (h2 : m'.currentTheme = m.currentTheme) :
    getEffectiveTheme m'.currentTheme prefersDark
      = getEffectiveTheme m.currentTheme prefersDark ∧
    (applyTheme m prefersDark).store = m.store ∧
    Storage.get (setTheme m prefersDark theme).store STORAGE_KEY = some theme ∧
    (setTheme m prefersDark theme).currentTheme = theme ∧
    Storage.get (setTheme m prefersDark "system").store STORAGE_KEY = some "system" ∧
    getEffectiveTheme "system" prefersDark ≠ "system" := by
  refine ⟨by rw [h2], rfl, ?_, ?_, ?_, ?_⟩
  · rcases mem_THEMES_cases h1 with h' | h' | h' <;> subst h' <;>
      rw [setTheme_valid _ _ _ h1, storageGet_set] <;> decide
  · rw [setTheme_valid _ _ _ h1]
  · rw [setTheme_valid _ _ _ (by decide : ("system" : String) ∈ THEMES), storageGet_set]
    decide
  · cases prefersDark <;> decide

theorem c9_effective_pure_preference_only_persisted_instance :
    getEffectiveTheme "system" true = getEffectiveTheme "system" true ∧
    (applyTheme ⟨"system", [], "light"⟩ true).store = [] ∧
    Storage.get (setTheme ⟨"system", [], "light"⟩ true "dark").store STORAGE_KEY
      = some "dark" ∧
    (setTheme ⟨"system", [], "light"⟩ true "dark").currentTheme = "dark" ∧
    Storage.get (setTheme ⟨"system", [], "light"⟩ true "system").store STORAGE_KEY
      = some "system" ∧
    getEffectiveTheme "system" true ≠ "system" :=
  c9_effective_pure_preference_only_persisted ⟨"system", [], "light"⟩
    ⟨"system", [], "light"⟩ true "dark" (by decide) rfl

/-- C10: `setTheme` called with any string outside the three valid theme
strings leaves the whole observable state — preference, store and document
theme — unchanged. -/
theorem c10_set_theme_invalid_noop (m : ThemeManager) (prefersDark : Bool)
    (theme : String) (h : ¬ theme ∈ THEMES) :
    setTheme m prefersDark theme = m := by
  unfold setTheme
  rw [if_pos]
  intro hc
  exact h (List.elem_iff.mp hc)

theorem c10_set_theme_invalid_noop_instance :
    setTheme ⟨"light", [], "light"⟩ false "banana" = ⟨"light", [], "light"⟩ :=
  c10_set_theme_invalid_noop ⟨"light", [], "light"⟩ false "banana" (by decide)
